import Mathlib

/-!
Verification development for the sleek screen-region capture tool
(src/main.rs). The interaction engine is embedded shallowly: the
event-loop body of handle_events becomes a pure step function on an
explicit loop state, machine integers become Int (i32 coordinates,
where X11 event coordinates are 16-bit so no i32 overflow can occur)
and Nat (u32 masks and pixel words, u64 nanosecond times), and the
external X11 / chrono / image services are parameters or are modelled
from their interfaces in the spec where noted.
-/

namespace Sleek

/-- Screen coordinates, from struct Point in main.rs (i32 fields). -/
structure Point where
  x : Int
  y : Int
deriving DecidableEq, Repr

/-- Componentwise minimum, from Point::min in main.rs. -/
def Point.min (p other : Point) : Point :=
  { x := Min.min p.x other.x, y := Min.min p.y other.y }

/-- Componentwise maximum, from Point::max in main.rs. -/
def Point.max (p other : Point) : Point :=
  { x := Max.max p.x other.x, y := Max.max p.y other.y }

/-- Selection lifecycle, from enum SelectionState in main.rs. -/
inductive SelectionState where
  | NotCreated
  | Selecting
  | Selected
deriving DecidableEq, Repr

/-- Screen geometry and channel masks, from struct ScreenData in main.rs
(width and height are i32, the masks are u32). -/
structure ScreenData where
  width : Int
  height : Int
  rmask : Nat
  gmask : Nat
  bmask : Nat
deriving DecidableEq, Repr

/-- Constant REFRESH_RATE in main.rs. -/
def REFRESH_RATE : Nat := 60

/-- Constant MIN_TIME_BETWEEN_UPDATES in main.rs, defined there as
((0.5 / REFRESH_RATE as f64) * 1000000000.0) as u64. The f64 value is
8333333.333... (to within a relative error of about 2 to the minus 52,
far from the next integer), and the as u64 cast truncates, so the
constant equals the floor of half a frame period in nanoseconds. -/
def MIN_TIME_BETWEEN_UPDATES : Nat := 1000000000 / (2 * REFRESH_RATE)

/-- Throttle gate, inline in handle_events:
last_update.elapsed().as_nanos() > MIN_TIME_BETWEEN_UPDATES as u128.
Times are nanosecond readings of the monotonic clock, so now is at
least last and Nat subtraction is the true elapsed time. -/
def allow_redraw (now last : Nat) : Bool :=
  MIN_TIME_BETWEEN_UPDATES < now - last

/-- X11 Button1. -/
def Button1 : Nat := 1

/-- The events handle_events dispatches on (MotionNotify, ButtonPress,
ButtonRelease, KeyPress, and everything else). Coordinates are the i32
event.button.x and event.button.y fields; button and keycode are the
u32 event.button.button and event.key.keycode fields. -/
inductive XEvent where
  | motionNotify (x y : Int)
  | buttonPress (button : Nat) (x y : Int)
  | buttonRelease (button : Nat) (x y : Int)
  | keyPress (keycode : Nat)
  | other
deriving DecidableEq, Repr

/-- The mutable locals of the handle_events loop: point_one, point_two,
selection, and last_update (an Instant, modelled as a nanosecond
reading of the monotonic clock). -/
structure LoopState where
  point_one : Point
  point_two : Point
  selection : SelectionState
  last_update : Nat
deriving DecidableEq, Repr

/-- State at entry of the handle_events loop: both points are (0, 0),
selection is NotCreated, last_update is the Instant::now() reading t0
taken before the loop. -/
def initState (t0 : Nat) : LoopState :=
  { point_one := { x := 0, y := 0 }
    point_two := { x := 0, y := 0 }
    selection := SelectionState.NotCreated
    last_update := t0 }

/-- The observable action one loop iteration performs besides mutating
the locals: nothing, a draw_selection call, a return after no save
(escape), or a save_selection call followed by return (enter). -/
inductive Effect where
  | noop
  | redraw (p1 p2 : Point)
  | cancel
  | save (p1 p2 : Point)
deriving DecidableEq, Repr

/-- One iteration of the handle_events event loop in main.rs, for one
delivered event at monotonic time now. The source draws and then takes
a fresh Instant::now() for last_update; the model uses the single
instant now for both, as the spec does. Keycode 9 is escape (return
without saving), keycode 36 is enter (save_selection, then return). -/
def handle_events (sd : ScreenData) (s : LoopState) (e : XEvent) (now : Nat) :
    LoopState × Effect :=
  match e with
  | XEvent.motionNotify x y =>
    match s.selection with
    | SelectionState.Selecting =>
      if x ≠ s.point_two.x ∨ y ≠ s.point_two.y then
        let p2 : Point := { x := x, y := y }
        if allow_redraw now s.last_update then
          ({ s with point_two := p2, last_update := now },
            Effect.redraw s.point_one p2)
        else
          ({ s with point_two := p2 }, Effect.noop)
      else (s, Effect.noop)
    | _ => (s, Effect.noop)
  | XEvent.buttonPress b x y =>
    if b = Button1 then
      ({ s with point_one := { x := x, y := y }
                point_two := { x := x, y := y }
                selection := SelectionState.Selecting }, Effect.noop)
    else (s, Effect.noop)
  | XEvent.buttonRelease b x y =>
    if b = Button1 then
      ({ s with point_two := { x := x, y := y }
                selection := SelectionState.Selected },
        Effect.redraw s.point_one { x := x, y := y })
    else (s, Effect.noop)
  | XEvent.keyPress k =>
    if k = 9 then (s, Effect.cancel)
    else if k = 36 then
      match s.selection with
      | SelectionState.NotCreated =>
        (s, Effect.save { x := 0, y := 0 } { x := sd.width, y := sd.height })
      | _ => (s, Effect.save s.point_one s.point_two)
    else (s, Effect.noop)
  | XEvent.other => (s, Effect.noop)

/-- Rectangle derivation in draw_selection in main.rs: origin is the
componentwise minimum of the two points, width and height are the
componentwise maximum minus the minimum. Returns (origin, width,
height). -/
def draw_selection (point_one point_two : Point) : Point × Int × Int :=
  let mn := point_one.min point_two
  let mx := point_one.max point_two
  (mn, mx.x - mn.x, mx.y - mn.y)

/-- Auxiliary for trailing_zeros: count up to fuel trailing zero bits.
With fuel 32 the count is exact for every value of a 32-bit word. -/
def trailing_zeros_aux : Nat → Nat → Nat
  | 0, _ => 0
  | fuel + 1, n => if n % 2 = 1 then 0 else 1 + trailing_zeros_aux fuel (n / 2)

/-- Model of u32::trailing_zeros used on the masks in save_selection.
On 0 it returns 32, as the Rust intrinsic does. -/
def trailing_zeros (n : Nat) : Nat :=
  if n = 0 then 32 else trailing_zeros_aux 32 n

/-- Channel extraction of one native pixel word in save_selection:
for each mask, (p AND mask) shifted right by the trailing zero count of
the mask, then cast as u8 (truncation to the low byte). The three
channel bytes are emitted in red, green, blue order. -/
def pixel_channels (rmask gmask bmask p : Nat) : List Nat :=
  [((p &&& rmask) >>> trailing_zeros rmask) % 256,
    ((p &&& gmask) >>> trailing_zeros gmask) % 256,
    ((p &&& bmask) >>> trailing_zeros bmask) % 256]

/-- The map-and-flatten in save_selection: the list of native pixel
words, in the row-major order the source slice has them, becomes the
interleaved RGB byte sequence. -/
def extract_rgb (rmask gmask bmask : Nat) (pixels : List Nat) : List Nat :=
  pixels.flatMap (pixel_channels rmask gmask bmask)

/-- Packing of known channel bytes into a native pixel word according
to contiguous 8-bit masks whose low bit positions are s, t and u (the
mask for a channel at position k is 255 <<< k and packing places the
byte at that position). -/
def pack_pixel (r g b s t u : Nat) : Nat :=
  (r <<< s) ||| (g <<< t) ||| (b <<< u)

/-- Capture step of save_selection in main.rs: rectangle geometry from
the two points (width and height are max minus min, then cast as u32,
exact since they are non-negative), readback of width times height
native words (get_image stands for the external XGetImage of spec
section 6; the source reads exactly width times height words from the
returned buffer), channel extraction, then the encode call. Modelled
from the spec: the external PNG encoder (spec sections 4.4 and 6) is
not in this repository; per its interface it accepts any dimensions
whose byte buffer has the matching length width times height times 3
and fails otherwise, so the result is some (width, height, bytes) on
success and none on an encode failure. -/
def save_selection (sd : ScreenData) (get_image : Nat → Nat → List Nat)
    (point_one point_two : Point) : Option (Nat × Nat × List Nat) :=
  let mn := point_one.min point_two
  let mx := point_one.max point_two
  let width := mx.x - mn.x
  let height := mx.y - mn.y
  let w := width.toNat
  let h := height.toNat
  let pixels := (get_image w h).take (w * h)
  let bytes := extract_rgb sd.rmask sd.gmask sd.bmask pixels
  if bytes.length = w * h * 3 then some (w, h, bytes) else none

/-- Rust char::is_whitespace restricted to the characters that occur in
filenames here (the Unicode White_Space property agrees with this on
ASCII space, tab, carriage return and line feed; no theorem below
involves any other whitespace). -/
def is_whitespace (c : Char) : Bool :=
  c = ' ' ∨ c = '\t' ∨ c = '\r' ∨ c = '\n'

/-- Rust str::trim on the character list: drop whitespace from both
ends. -/
def trim (l : List Char) : List Char :=
  ((l.dropWhile is_whitespace).reverse.dropWhile is_whitespace).reverse

/-- Rust str::replace with pattern ".png" and empty replacement, as in
save_selection: remove every non-overlapping occurrence of ".png",
scanning left to right, without rescanning removed regions. -/
def remove_png : List Char → List Char
  | '.' :: 'p' :: 'n' :: 'g' :: rest => remove_png rest
  | c :: rest => c :: remove_png rest
  | [] => []

/-- Whether the list contains an occurrence of ".png". -/
def contains_png : List Char → Bool
  | '.' :: 'p' :: 'n' :: 'g' :: _ => true
  | _ :: rest => contains_png rest
  | [] => false

/-- Output path resolution in save_selection (after the chrono local
time formatting, which is an external service per spec section 1 and
the identity on format strings without percent directives):
trim, then replace every ".png" with nothing, then append ".png". -/
def resolve_output_path (s : String) : String :=
  String.mk (remove_png (trim s.toList) ++ ('.' :: 'p' :: 'n' :: 'g' :: []))

/-! Theorems. -/

/-- C6. Rectangle normalization: for all pairs of points, the rectangle
draw_selection derives has origin equal to the componentwise minimum,
size equal to componentwise max minus min, the size is componentwise
non-negative, and swapping the two points yields the identical
rectangle. -/
theorem c6_rectangle_normalization (p1 p2 : Point) :
    (draw_selection p1 p2).1.x = Min.min p1.x p2.x ∧
    (draw_selection p1 p2).1.y = Min.min p1.y p2.y ∧
    (draw_selection p1 p2).2.1 = Max.max p1.x p2.x - Min.min p1.x p2.x ∧
    (draw_selection p1 p2).2.2 = Max.max p1.y p2.y - Min.min p1.y p2.y ∧
    0 ≤ (draw_selection p1 p2).2.1 ∧
    0 ≤ (draw_selection p1 p2).2.2 ∧
    draw_selection p1 p2 = draw_selection p2 p1 := by
  refine ⟨rfl, rfl, rfl, rfl, ?_, ?_, ?_⟩
  · exact sub_nonneg.mpr (min_le_max)
  · exact sub_nonneg.mpr (min_le_max)
  · simp [draw_selection, Point.min, Point.max, min_comm, max_comm]

/-- C3. Confirm with no drag: when the selection state is NotCreated,
the enter key (keycode 36) invokes the capture with the rectangle from
the origin to (screen width, screen height), the full captured
region. -/
theorem c3_confirm_no_drag (sd : ScreenData) (s : LoopState) (now : Nat)
    (h : s.selection = SelectionState.NotCreated) :
    handle_events sd s (XEvent.keyPress 36) now =
      (s, Effect.save { x := 0, y := 0 } { x := sd.width, y := sd.height }) := by
  simp [handle_events, h]

/-- Witness for C3 at a concrete screen and state. -/
theorem c3_confirm_no_drag_witness :
    handle_events ⟨1920, 1080, 0, 0, 0⟩ (initState 7) (XEvent.keyPress 36) 11 =
      (initState 7, Effect.save { x := 0, y := 0 } { x := 1920, y := 1080 }) :=
  c3_confirm_no_drag ⟨1920, 1080, 0, 0, 0⟩ (initState 7) 11 rfl

/-- C4. Degenerate selection: when the two points coincide, the capture
and encode step succeeds and produces the degenerate 0 by 0 image with
an empty byte buffer, for every screen and every readback service. -/
theorem c4_degenerate_selection (sd : ScreenData)
    (get_image : Nat → Nat → List Nat) (p : Point) :
    save_selection sd get_image p p = some (0, 0, []) := by
  simp [save_selection, Point.min, Point.max, extract_rgb]

/-- C2. Frame throttle: the minimum interval constant is 8333333
nanoseconds (half a frame period at 60 frames per second, truncated);
the gate accepts exactly when the elapsed time strictly exceeds it; of
two requests less than half a frame period apart (as an exact rational
comparison, 120 times the gap below one second in nanoseconds) at most
one is accepted; two requests strictly further apart than half a frame
period are both accepted; and the motion handler advances last_update
to now exactly when the gate accepts, leaving it unchanged when the
gate rejects. -/
theorem c2_frame_throttle :
    MIN_TIME_BETWEEN_UPDATES = 8333333 ∧
    (∀ now last, allow_redraw now last = true ↔
      MIN_TIME_BETWEEN_UPDATES < now - last) ∧
    (∀ last t1 t2, 120 * (t2 - t1) < 1000000000 →
      allow_redraw t1 last = true → allow_redraw t2 t1 = false) ∧
    (∀ last t1 t2, 1000000000 < 120 * (t2 - t1) →
      allow_redraw t1 last = true → allow_redraw t2 t1 = true) ∧
    (∀ sd s x y now, s.selection = SelectionState.Selecting →
      (x ≠ s.point_two.x ∨ y ≠ s.point_two.y) →
      ((allow_redraw now s.last_update = true →
          ((handle_events sd s (XEvent.motionNotify x y) now).1).last_update
            = now) ∧
        (allow_redraw now s.last_update = false →
          ((handle_events sd s (XEvent.motionNotify x y) now).1).last_update
            = s.last_update))) := by
  refine ⟨by decide, ?_, ?_, ?_, ?_⟩
  · intro now last
    simp [allow_redraw]
  · intro last t1 t2 hgap _h1
    simp only [allow_redraw, MIN_TIME_BETWEEN_UPDATES, REFRESH_RATE] at *
    simp only [decide_eq_false_iff_not]
    omega
  · intro last t1 t2 hgap _h1
    simp only [allow_redraw, MIN_TIME_BETWEEN_UPDATES, REFRESH_RATE] at *
    simp only [decide_eq_true_iff]
    omega
  · intro sd s x y now hsel hmoved
    constructor
    · intro hgate
      simp [handle_events, hsel, hmoved, hgate]
    · intro hgate
      simp [handle_events, hsel, hmoved, hgate]

/-- Witness for C2: with the last accepted redraw at 9000000, a request
8000000 nanoseconds after an accepted one is rejected, and a request
11000000 nanoseconds after an accepted one is accepted. -/
theorem c2_frame_throttle_witness :
    allow_redraw 17000000 9000000 = false ∧
    allow_redraw 20000000 9000000 = true :=
  ⟨c2_frame_throttle.2.2.1 0 9000000 17000000 (by decide) (by decide),
    c2_frame_throttle.2.2.2.1 0 9000000 20000000 (by decide) (by decide)⟩

/-- C7. Primary button release: the release handler sets point_two to
the cursor position, emits the redraw of the (point_one, point_two)
rectangle — in particular also at an instant where the throttle gate
would reject — and sets the selection state to Selected, for every
prior state and every instant. -/
theorem c7_button_release (sd : ScreenData) (s : LoopState) (x y : Int)
    (now : Nat) (hgate : allow_redraw now s.last_update = false) :
    handle_events sd s (XEvent.buttonRelease Button1 x y) now =
      ({ s with point_two := { x := x, y := y }
                selection := SelectionState.Selected },
        Effect.redraw s.point_one { x := x, y := y }) ∧
    (∀ now2 : Nat,
      handle_events sd s (XEvent.buttonRelease Button1 x y) now2 =
        handle_events sd s (XEvent.buttonRelease Button1 x y) now) := by
  refine ⟨?_, fun now2 => rfl⟩
  simp [handle_events, Button1]

/-- Witness for C7 at a concrete state whose gate rejects at the given
instant. -/
theorem c7_button_release_witness :
    handle_events ⟨1920, 1080, 0, 0, 0⟩ (initState 0)
        (XEvent.buttonRelease Button1 110 60) 100 =
      ({ initState 0 with point_two := { x := 110, y := 60 }
                          selection := SelectionState.Selected },
        Effect.redraw { x := 0, y := 0 } { x := 110, y := 60 }) ∧
    (∀ now2 : Nat,
      handle_events ⟨1920, 1080, 0, 0, 0⟩ (initState 0)
          (XEvent.buttonRelease Button1 110 60) now2 =
        handle_events ⟨1920, 1080, 0, 0, 0⟩ (initState 0)
          (XEvent.buttonRelease Button1 110 60) 100) :=
  c7_button_release ⟨1920, 1080, 0, 0, 0⟩ (initState 0) 110 60 100 (by decide)

/-- C8. No pointer input lost to throttling: a motion event while
Selecting whose position differs from point_two updates point_two even
when the gate rejects; only the redraw is skipped, and every other
state component, last_update included, is unchanged. -/
theorem c8_motion_records_position (sd : ScreenData) (s : LoopState)
    (x y : Int) (now : Nat)
    (hsel : s.selection = SelectionState.Selecting)
    (hmoved : x ≠ s.point_two.x ∨ y ≠ s.point_two.y)
    (hgate : allow_redraw now s.last_update = false) :
    handle_events sd s (XEvent.motionNotify x y) now =
      ({ s with point_two := { x := x, y := y } }, Effect.noop) := by
  simp [handle_events, hsel, hmoved, hgate]

/-- Witness for C8 at a concrete Selecting state whose gate rejects. -/
theorem c8_motion_records_position_witness :
    handle_events ⟨1920, 1080, 0, 0, 0⟩
        { point_one := { x := 1, y := 2 }, point_two := { x := 3, y := 4 }
          selection := SelectionState.Selecting, last_update := 50 }
        (XEvent.motionNotify 9 9) 60 =
      ({ point_one := { x := 1, y := 2 }, point_two := { x := 9, y := 9 }
         selection := SelectionState.Selecting, last_update := 50 },
        Effect.noop) :=
  c8_motion_records_position ⟨1920, 1080, 0, 0, 0⟩
    { point_one := { x := 1, y := 2 }, point_two := { x := 3, y := 4 }
      selection := SelectionState.Selecting, last_update := 50 }
    9 9 60 rfl (by decide) (by decide)

/-- C9. Pointer motion is a complete no-op outside Selecting: in state
NotCreated or Selected a motion event leaves every component of the
loop state unchanged and performs no redraw. -/
theorem c9_motion_noop_outside_selecting (sd : ScreenData) (s : LoopState)
    (x y : Int) (now : Nat)
    (h : s.selection = SelectionState.NotCreated ∨
      s.selection = SelectionState.Selected) :
    handle_events sd s (XEvent.motionNotify x y) now = (s, Effect.noop) := by
  rcases h with h | h <;> simp [handle_events, h]

/-- Witness for C9 in the NotCreated initial state. -/
theorem c9_motion_noop_witness :
    handle_events ⟨1920, 1080, 0, 0, 0⟩ (initState 3)
        (XEvent.motionNotify 5 6) 9 = (initState 3, Effect.noop) :=
  c9_motion_noop_outside_selecting ⟨1920, 1080, 0, 0, 0⟩ (initState 3) 5 6 9
    (Or.inl rfl)

/-- C10. A primary button release moves every prior state to Selected;
released directly from the initial NotCreated state (no button press
ever processed), point_one keeps its initial value (0, 0), and a
subsequent confirm saves the rectangle from (0, 0) to the release
position — not the full screen, whenever the release position differs
from (screen width, screen height). -/
theorem c10_release_without_press :
    (∀ (sd : ScreenData) (s : LoopState) (x y : Int) (now : Nat),
      ((handle_events sd s (XEvent.buttonRelease Button1 x y) now).1).selection
        = SelectionState.Selected) ∧
    (∀ (sd : ScreenData) (t0 : Nat) (px py : Int) (n1 n2 : Nat),
      ((handle_events sd (initState t0)
          (XEvent.buttonRelease Button1 px py) n1).1).point_one
        = { x := 0, y := 0 } ∧
      handle_events sd
          ((handle_events sd (initState t0)
            (XEvent.buttonRelease Button1 px py) n1).1)
          (XEvent.keyPress 36) n2 =
        ((handle_events sd (initState t0)
            (XEvent.buttonRelease Button1 px py) n1).1,
          Effect.save { x := 0, y := 0 } { x := px, y := py }) ∧
      (Point.mk px py ≠ Point.mk sd.width sd.height →
        (handle_events sd
            ((handle_events sd (initState t0)
              (XEvent.buttonRelease Button1 px py) n1).1)
            (XEvent.keyPress 36) n2).2 ≠
          Effect.save { x := 0, y := 0 } { x := sd.width, y := sd.height })) := by
  constructor
  · intro sd s x y now
    simp [handle_events, Button1]
  · intro sd t0 px py n1 n2
    refine ⟨rfl, ?_, ?_⟩
    · simp [handle_events, Button1, initState]
    · intro hne
      simp [handle_events, Button1, initState]
      intro h1 h2
      exact absurd (by rw [h1, h2]) hne

/-- Witness for C10: a release at (110, 60) from the initial state on a
1920 by 1080 screen, then confirm, saves the rectangle from (0, 0) to
(110, 60) and not the full screen. -/
theorem c10_release_without_press_witness :
    ((handle_events ⟨1920, 1080, 0, 0, 0⟩ (initState 0)
        (XEvent.buttonRelease Button1 110 60) 4).1).point_one
      = { x := 0, y := 0 } ∧
    handle_events ⟨1920, 1080, 0, 0, 0⟩
        ((handle_events ⟨1920, 1080, 0, 0, 0⟩ (initState 0)
          (XEvent.buttonRelease Button1 110 60) 4).1)
        (XEvent.keyPress 36) 8 =
      ((handle_events ⟨1920, 1080, 0, 0, 0⟩ (initState 0)
          (XEvent.buttonRelease Button1 110 60) 4).1,
        Effect.save { x := 0, y := 0 } { x := 110, y := 60 }) ∧
    (handle_events ⟨1920, 1080, 0, 0, 0⟩
        ((handle_events ⟨1920, 1080, 0, 0, 0⟩ (initState 0)
          (XEvent.buttonRelease Button1 110 60) 4).1)
        (XEvent.keyPress 36) 8).2 ≠
      Effect.save { x := 0, y := 0 } { x := (1920 : Int), y := (1080 : Int) } :=
  ⟨(c10_release_without_press.2 ⟨1920, 1080, 0, 0, 0⟩ 0 110 60 4 8).1,
    (c10_release_without_press.2 ⟨1920, 1080, 0, 0, 0⟩ 0 110 60 4 8).2.1,
    (c10_release_without_press.2 ⟨1920, 1080, 0, 0, 0⟩ 0 110 60 4 8).2.2
      (by decide)⟩

/-- Helper for C1: on a list with no occurrence of ".png", the replace
step of the path resolution changes nothing. -/
theorem remove_png_id (l : List Char) (h : contains_png l = false) :
    remove_png l = l := by
  induction l using remove_png.induct with
  | case1 rest ih => simp [contains_png] at h
  | case2 c rest hne ih =>
    have e2 : contains_png rest = false := by
      rw [contains_png] at h
      · exact h
      · exact hne
    rw [remove_png]
    · rw [ih e2]
    · exact hne
  | case3 => rfl

/-- C1, counterexample: the resolver does not leave a non-suffix ".png"
occurrence in place. On input "shot.pngx" the claim predicts
"shot.pngx.png"; the code removes the interior occurrence and yields
"shotx.png". -/
theorem c1_output_path_counterexample :
    resolve_output_path "shot.pngx" = "shotx.png" ∧
    resolve_output_path "shot.pngx" ≠ "shot.pngx.png" := by
  exact ⟨by decide, by decide⟩

/-- C1, amended: the resolver trims surrounding whitespace, removes
every occurrence of ".png" anywhere in the string (not only a suffix),
and appends exactly one ".png"; on a trimmed input with no ".png"
occurrence at all it changes nothing but the appended suffix; inputs
"shot.png" and "shot" both resolve to "shot.png", and a repeated
suffix is collapsed. -/
theorem c1_output_path_amended :
    (∀ s : String, (resolve_output_path s).toList =
      remove_png (trim s.toList) ++ ('.' :: 'p' :: 'n' :: 'g' :: [])) ∧
    (∀ l : List Char, contains_png l = false → trim l = l →
      resolve_output_path (String.mk l) =
        String.mk (l ++ ('.' :: 'p' :: 'n' :: 'g' :: []))) ∧
    resolve_output_path "shot.png" = "shot.png" ∧
    resolve_output_path "shot" = "shot.png" ∧
    resolve_output_path "a.png.png" = "a.png" := by
  refine ⟨fun s => rfl, ?_, by decide, by decide, by decide⟩
  intro l hpng htrim
  simp [resolve_output_path, htrim, remove_png_id l hpng]

/-- Witness for C1 amended: a plain name gains exactly one suffix. -/
theorem c1_output_path_amended_witness :
    resolve_output_path (String.mk ('f' :: 'o' :: 'o' :: [])) =
      String.mk (('f' :: 'o' :: 'o' :: []) ++ ('.' :: 'p' :: 'n' :: 'g' :: [])) :=
  c1_output_path_amended.2.1 ('f' :: 'o' :: 'o' :: []) (by decide) (by decide)

/-! Bitwise helper lemmas for the pixel-channel round-trip. -/

/-- Bits of the byte mask 255: exactly positions 0 through 7. -/
theorem testBit_255 (i : Nat) : Nat.testBit 255 i = decide (i < 8) := by
  have h : (255 : Nat) = 2 ^ 8 - 1 := by norm_num
  rw [h, Nat.testBit_two_pow_sub_one]

/-- A set bit of a shifted byte is a set bit of the shifted byte
mask. -/
theorem testBit_byte_shift (x s i : Nat) (hx : x < 256)
    (h : Nat.testBit (x <<< s) i = true) :
    Nat.testBit (255 <<< s) i = true := by
  rw [Nat.testBit_shiftLeft] at h ⊢
  simp only [Bool.and_eq_true, decide_eq_true_eq] at h ⊢
  obtain ⟨hsi, hbit⟩ := h
  refine ⟨hsi, ?_⟩
  rw [testBit_255]
  by_contra hc
  simp only [decide_eq_true_eq, not_lt] at hc
  have : Nat.testBit x (i - s) = false :=
    Nat.testBit_lt_two_pow (lt_of_lt_of_le hx (by
      calc (256 : Nat) = 2 ^ 8 := by norm_num
      _ ≤ 2 ^ (i - s) := Nat.pow_le_pow_right (by norm_num) hc))
  rw [this] at hbit
  exact Bool.false_ne_true hbit

/-- Masking a shifted byte with its own byte mask changes nothing. -/
theorem byte_shift_absorb (x s : Nat) (hx : x < 256) :
    (x <<< s) &&& (255 <<< s) = x <<< s := by
  apply Nat.eq_of_testBit_eq
  intro i
  rw [Nat.testBit_land]
  cases hx1 : Nat.testBit (x <<< s) i with
  | false => simp
  | true => simp [testBit_byte_shift x s i hx hx1]

/-- A byte shifted into one channel vanishes under the mask of a
disjoint channel. -/
theorem byte_shift_disjoint (x s t : Nat) (hx : x < 256)
    (hdisj : (255 <<< s) &&& (255 <<< t) = 0) :
    (x <<< s) &&& (255 <<< t) = 0 := by
  apply Nat.eq_of_testBit_eq
  intro i
  rw [Nat.testBit_land, Nat.zero_testBit]
  cases hx1 : Nat.testBit (x <<< s) i with
  | false => simp
  | true =>
    have h1 := testBit_byte_shift x s i hx hx1
    have h2 := congrArg (fun n => Nat.testBit n i) hdisj
    simp only [Nat.testBit_land, Nat.zero_testBit] at h2
    rw [h1, Bool.true_and] at h2
    rw [Bool.true_and]
    exact h2

/-- Bitwise or distributes over masking. -/
theorem lor_land_distrib (p q m : Nat) :
    (p ||| q) &&& m = (p &&& m) ||| (q &&& m) := by
  apply Nat.eq_of_testBit_eq
  intro i
  simp [Nat.testBit_land, Nat.testBit_lor, Bool.and_or_distrib_right]

/-- Shifting left and then right by the same amount is the
identity. -/
theorem shiftLeft_then_shiftRight (x s : Nat) : (x <<< s) >>> s = x := by
  rw [Nat.shiftLeft_eq, Nat.shiftRight_eq_div_pow]
  exact Nat.mul_div_cancel x (Nat.pos_pow_of_pos s (by norm_num))

/-- Extraction of one channel: masking the packed word with the byte
mask at position s and shifting down recovers the byte placed there,
provided the remaining summand vanishes under that mask. -/
theorem extract_one (x j s : Nat) (hx : x < 256)
    (hj : j &&& (255 <<< s) = 0) :
    (((x <<< s) ||| j) &&& (255 <<< s)) >>> s = x := by
  rw [lor_land_distrib, byte_shift_absorb x s hx, hj, Nat.or_zero,
    shiftLeft_then_shiftRight]

/-- A word that vanishes under a mask stays vanishing after joining
another such word. -/
theorem lor_land_zero (p q m : Nat) (hp : p &&& m = 0) (hq : q &&& m = 0) :
    (p ||| q) &&& m = 0 := by
  rw [lor_land_distrib, hp, hq, Nat.or_zero]

/-- Trailing zero count of a byte shifted by k, with enough fuel. -/
theorem trailing_zeros_aux_byte : ∀ (fuel k : Nat), k < fuel →
    trailing_zeros_aux fuel (255 * 2 ^ k) = k := by
  intro fuel
  induction fuel with
  | zero => intro k hk; omega
  | succ f ih =>
    intro k hk
    cases k with
    | zero => simp [trailing_zeros_aux]
    | succ j =>
      have heven : (255 * 2 ^ (j + 1)) % 2 = 0 := by
        rw [pow_succ, ← mul_assoc]
        exact Nat.mul_mod_left _ 2
      have hdiv : 255 * 2 ^ (j + 1) / 2 = 255 * 2 ^ j := by
        rw [pow_succ, ← mul_assoc]
        exact Nat.mul_div_cancel _ (by norm_num)
      rw [trailing_zeros_aux]
      rw [if_neg (by omega), hdiv, ih j (by omega)]
      omega

/-- The trailing zero count of the contiguous byte mask at position k
is k. -/
theorem trailing_zeros_byte_mask (k : Nat) (hk : k < 32) :
    trailing_zeros (255 <<< k) = k := by
  rw [Nat.shiftLeft_eq, trailing_zeros]
  rw [if_neg (by positivity)]
  exact trailing_zeros_aux_byte 32 k hk

/-- Each pixel word contributes exactly three bytes to the interleaved
sequence. -/
theorem extract_rgb_length (m1 m2 m3 : Nat) (pixels : List Nat) :
    (extract_rgb m1 m2 m3 pixels).length = pixels.length * 3 := by
  induction pixels with
  | nil => rfl
  | cons p rest ih =>
    simp only [extract_rgb, List.flatMap_cons, List.length_append] at *
    simp only [pixel_channels, List.length_cons, List.length_nil]
    omega

/-- C5. Pixel-channel extraction round-trip: for channel bytes r, g, b
and any pixel format whose red, green and blue masks are pairwise
non-overlapping contiguous 8-bit masks (the byte mask 255 shifted to
positions s, t, u inside the 32-bit word), packing the bytes into a
native pixel word and then extracting each channel by masking and
shifting right by the trailing zero count of its mask recovers exactly
r, g and b; extracting a block of width times height pixel words yields
an interleaved byte sequence of length width times height times 3, and
the extraction of a concatenation of rows is the concatenation of the
extractions, in order. -/
theorem c5_pixel_roundtrip (s t u r g b w h : Nat) (pixels : List Nat)
    (hs : s < 32) (ht : t < 32) (hu : u < 32)
    (hst : (255 <<< s) &&& (255 <<< t) = 0)
    (hsu : (255 <<< s) &&& (255 <<< u) = 0)
    (htu : (255 <<< t) &&& (255 <<< u) = 0)
    (hr : r < 256) (hg : g < 256) (hb : b < 256)
    (hlen : pixels.length = w * h) :
    pixel_channels (255 <<< s) (255 <<< t) (255 <<< u) (pack_pixel r g b s t u)
      = [r, g, b] ∧
    (extract_rgb (255 <<< s) (255 <<< t) (255 <<< u) pixels).length
      = w * h * 3 ∧
    (∀ xs ys : List Nat,
      extract_rgb (255 <<< s) (255 <<< t) (255 <<< u) (xs ++ ys) =
        extract_rgb (255 <<< s) (255 <<< t) (255 <<< u) xs ++
          extract_rgb (255 <<< s) (255 <<< t) (255 <<< u) ys) := by
  have hts : (255 <<< t) &&& (255 <<< s) = 0 := by
    rw [Nat.land_comm]; exact hst
  have hus : (255 <<< u) &&& (255 <<< s) = 0 := by
    rw [Nat.land_comm]; exact hsu
  have hut : (255 <<< u) &&& (255 <<< t) = 0 := by
    rw [Nat.land_comm]; exact htu
  refine ⟨?_, ?_, ?_⟩
  · have e_r : ((pack_pixel r g b s t u &&& (255 <<< s)) >>>
        trailing_zeros (255 <<< s)) % 256 = r := by
      rw [trailing_zeros_byte_mask s hs, pack_pixel, Nat.lor_assoc,
        extract_one r _ s hr (lor_land_zero _ _ _
          (byte_shift_disjoint g t s hg hts)
          (byte_shift_disjoint b u s hb hus))]
      exact Nat.mod_eq_of_lt hr
    have e_g : ((pack_pixel r g b s t u &&& (255 <<< t)) >>>
        trailing_zeros (255 <<< t)) % 256 = g := by
      rw [trailing_zeros_byte_mask t ht, pack_pixel,
        Nat.lor_comm (r <<< s) (g <<< t), Nat.lor_assoc,
        extract_one g _ t hg (lor_land_zero _ _ _
          (byte_shift_disjoint r s t hr hst)
          (byte_shift_disjoint b u t hb hut))]
      exact Nat.mod_eq_of_lt hg
    have e_b : ((pack_pixel r g b s t u &&& (255 <<< u)) >>>
        trailing_zeros (255 <<< u)) % 256 = b := by
      rw [trailing_zeros_byte_mask u hu, pack_pixel,
        Nat.lor_comm _ (b <<< u),
        extract_one b _ u hb (lor_land_zero _ _ _
          (byte_shift_disjoint r s u hr hsu)
          (byte_shift_disjoint g t u hg htu))]
      exact Nat.mod_eq_of_lt hb
    simp [pixel_channels, e_r, e_g, e_b]
  · rw [extract_rgb_length, hlen]
  · intro xs ys
    simp [extract_rgb]

/-- Witness for C5 with the common masks at positions 16, 8 and 0 and
the byte triple (7, 250, 3) in a one-pixel block. -/
theorem c5_pixel_roundtrip_witness :
    pixel_channels (255 <<< 16) (255 <<< 8) (255 <<< 0)
        (pack_pixel 7 250 3 16 8 0) = [7, 250, 3] ∧
    (extract_rgb (255 <<< 16) (255 <<< 8) (255 <<< 0)
        [pack_pixel 7 250 3 16 8 0]).length = 1 * 1 * 3 ∧
    (∀ xs ys : List Nat,
      extract_rgb (255 <<< 16) (255 <<< 8) (255 <<< 0) (xs ++ ys) =
        extract_rgb (255 <<< 16) (255 <<< 8) (255 <<< 0) xs ++
          extract_rgb (255 <<< 16) (255 <<< 8) (255 <<< 0) ys) :=
  c5_pixel_roundtrip 16 8 0 7 250 3 1 1 [pack_pixel 7 250 3 16 8 0]
    (by decide) (by decide) (by decide) (by decide) (by decide) (by decide)
    (by decide) (by decide) (by decide) rfl

end Sleek
